import Mathlib

/-!
Verification development for the `ballin` interactive command interpreter
(`source/main.cpp`) and its arithmetic expression engine
(`source/math/Eval.cpp`, `source/math/Lexer.hpp`).

The C++ sources are shallowly embedded below:

* command actions are pure functions `List String → List String`
  (the C++ `std::function<return_t(argument_t)>` over `std::deque<std::string>`);
* `float` values are modelled exactly by the `Fraction` type below; every
  numeric value reached by a theorem in this file is a small integer, on
  which IEEE single-precision arithmetic and default stream formatting
  agree exactly with the model;
* `std::size_t` values are modelled as `Nat` clamped to `2 ^ 64 - 1` where
  the code can produce them from parsing;
* fatal conditions (`assert`, `std::unreachable`) and C++ undefined
  behaviour (e.g. `front()` on an empty range) are modelled by `Option`
  results or by documented total defaults that no theorem exercises.
-/

namespace Ballin

/-- Command object of `main.cpp` (`class Command`): a name, the declared
argument count (`numberOfArguments_m`, a `std::size_t`), the bound
arguments accumulated during parsing (`arguments_m`), the pure action
(`action_m`), and the chained subcommands (`subcommands_m`). -/
inductive Command : Type where
  | mk (name : String) (numberOfArguments : Nat) (arguments : List String)
      (action : List String → List String) (subcommands : List Command) : Command

/-- Accessor for `Command::name()`. -/
def Command.name : Command → String
  | .mk n _ _ _ _ => n

/-- Accessor for `Command::number_of_arguments()`. -/
def Command.numberOfArguments : Command → Nat
  | .mk _ k _ _ _ => k

/-- Accessor for `Command::arguments()`. -/
def Command.arguments : Command → List String
  | .mk _ _ as _ _ => as

/-- Accessor for the stored action `action_m`. -/
def Command.action : Command → (List String → List String)
  | .mk _ _ _ act _ => act

/-- Accessor for `Command::subcommands()`. -/
def Command.subcommands : Command → List Command
  | .mk _ _ _ _ subs => subs

/-- Repeated `Command::push_back_argument`: appends each of `newArgs`, in
order, to the bound arguments (the parse loop in `enqueue_command`). -/
def Command.push_back_arguments : Command → List String → Command
  | .mk n k as act subs, newArgs => .mk n k (as ++ newArgs) act subs

/-- Repeated `Command::push_subcommand`: appends each chained subcommand,
in order (the subcommand loop in `enqueue_command`). -/
def Command.append_subcommands : Command → List Command → Command
  | .mk n k as act subs, new => .mk n k as act (subs ++ new)

/-- The call `command(arguments)` (`Command::operator()(argument_t)`):
copies the bound arguments, appends every supplied argument in order, and
invokes the action on the combined list. -/
def Command.invoke : Command → List String → List String
  | .mk _ _ as act _, extra => act (as ++ extra)

/-- The zero-argument call `command()` (`Command::operator()()`): invokes
the action on the bound arguments alone. -/
def Command.invoke0 : Command → List String
  | .mk _ _ as act _ => act as

/-- The recursive helper behind `calculate_edit_distance` in `main.cpp`
(both variants are byte-identical in this function), working on the
character lists of the two `std::string_view`s.  The source sets
`toTail = from.substr(1)` — both tails are suffixes of `from`; the second
recursive call is `calculate_edit_distance(toTail, from)`.  The embedding
reproduces that faithfully: `fs` is used where the source uses `fromTail`
and `toTail` alike, and the unused `_ts` mirrors the fact that the source
never takes a tail of `to`. -/
def edit_distance_chars : List Char → List Char → Nat
  | [], t => t.length
  | f :: fs, [] => (f :: fs).length
  | f :: fs, t :: _ts =>
    if f = t then edit_distance_chars fs fs
    else
      1 + min (edit_distance_chars fs (t :: _ts))
          (min (edit_distance_chars fs (f :: fs)) (edit_distance_chars fs fs))

/-- `calculate_edit_distance(from, to)` from `main.cpp`, lifted to
`String`. -/
def calculate_edit_distance (f t : String) : Nat :=
  edit_distance_chars f.data t.data

/-- Classic Levenshtein edit distance (the specification-side definition,
following the spec's words in section 4.1: minimum number of
single-character insert / delete / substitute operations; stated via the
standard recursive formulation, with the substitution branch taking the
tail of BOTH strings). -/
def levenshtein_chars : List Char → List Char → Nat
  | [], t => t.length
  | f :: fs, [] => (f :: fs).length
  | f :: fs, t :: ts =>
    if f = t then levenshtein_chars fs ts
    else
      1 + min (levenshtein_chars fs (t :: ts))
          (min (levenshtein_chars (f :: fs) ts) (levenshtein_chars fs ts))
termination_by f t => f.length + t.length
decreasing_by
  all_goals simp [List.length]
  all_goals omega

/-- Levenshtein distance lifted to `String`. -/
def levenshtein (a b : String) : Nat :=
  levenshtein_chars a.data b.data

/-- Exact model of the C++ `float` values this program computes with: a
fraction of integers, combined by exact field arithmetic (denominators
multiply; no normalisation).  IEEE single-precision rounding is not
modelled: every numeric value reached by a theorem in this file is a
small integer, on which `float` arithmetic is exact and agrees with this
model. -/
structure Fraction : Type where
  num : Int
  den : Int
deriving DecidableEq

/-- Embeds an integer as a fraction. -/
def Fraction.ofInt (n : Int) : Fraction :=
  ⟨n, 1⟩

/-- Exact addition. -/
def Fraction.add (a b : Fraction) : Fraction :=
  ⟨a.num * b.den + b.num * a.den, a.den * b.den⟩

/-- Exact subtraction. -/
def Fraction.sub (a b : Fraction) : Fraction :=
  ⟨a.num * b.den - b.num * a.den, a.den * b.den⟩

/-- Exact multiplication. -/
def Fraction.mul (a b : Fraction) : Fraction :=
  ⟨a.num * b.num, a.den * b.den⟩

/-- Exact division.  Division by zero produces a zero denominator where
C++ `float` division produces an infinity; no theorem divides by
zero. -/
def Fraction.div (a b : Fraction) : Fraction :=
  ⟨a.num * b.den, a.den * b.num⟩

/-- Exact negation. -/
def Fraction.neg (a : Fraction) : Fraction :=
  ⟨-a.num, a.den⟩

/-- Numeric parse helpers: longest prefix of decimal digits of a character
list, returned together with the unconsumed rest. -/
def take_digits : List Char → (List Char × List Char)
  | [] => ([], [])
  | c :: cs =>
    if c.isDigit then
      let p := take_digits cs
      (c :: p.1, p.2)
    else ([], c :: cs)

/-- Decimal value of a digit list. -/
def digits_to_nat (ds : List Char) : Nat :=
  ds.foldl (fun acc c => acc * 10 + (c.toNat - 48)) 0

/-- The extraction `std::stringstream{s} >> (float)`, modelled over
`Fraction`: optional sign, integer digits, optional dot and fraction
digits; the parsed magnitude `intPart + fracPart / 10 ^ k` is written
over the common denominator `10 ^ k`.  A failed extraction leaves the
value-initialised `0` (C++11 semantics).  Exponent notation is not
modelled; no input in this development uses it. -/
def parse_float (s : String) : Fraction :=
  let signAndRest : Bool × List Char :=
    match s.data with
    | '-' :: rest => (true, rest)
    | '+' :: rest => (false, rest)
    | cs => (false, cs)
  let ip := take_digits signAndRest.2
  let fp : List Char × List Char :=
    match ip.2 with
    | '.' :: r => take_digits r
    | _ => ([], [])
  if ip.1 = [] ∧ fp.1 = [] then Fraction.ofInt 0
  else
    let magnitude : Fraction :=
      ⟨(digits_to_nat ip.1 : Int) * ((10 : Int) ^ fp.1.length) + (digits_to_nat fp.1 : Int),
        (10 : Int) ^ fp.1.length⟩
    if signAndRest.1 then magnitude.neg else magnitude

/-- Largest `std::size_t` value. -/
def size_t_max : Nat := 2 ^ 64 - 1

/-- The extraction `std::stringstream{s} >> (std::size_t)`: decimal digit
prefix, clamped to `size_t_max` on overflow (C++11 stores the maximum
representable value); a failed extraction leaves `0`.  A leading sign is
not modelled; no input in this development carries one. -/
def parse_size_t (s : String) : Nat :=
  let ip := (take_digits s.data).1
  if ip = [] then 0 else min (digits_to_nat ip) size_t_max

/-- Default `operator<<` rendering of a `float` into a `std::stringstream`
(`defaultfloat`, precision 6), restricted to the values this development
produces: every such value is an integer of magnitude below `10 ^ 6`
carried over denominator `1`, which C++ prints as a plain decimal
integer.  The other branch is a documented placeholder (decimal float
rendering) that no theorem in this file reaches. -/
def format_float (q : Fraction) : String :=
  if q.den = 1 then toString q.num
  else toString q.num ++ "/" ++ toString q.den

/-- Access `arguments.at(i)` on a `std::deque<std::string>`.  When `i` is
out of range the C++ call throws `std::out_of_range` (terminating the
program); the model returns the empty string, and no theorem in this file
exercises that case. -/
def arg_at (args : List String) (i : Nat) : String :=
  args.getD i ""

/-- Lowercase hexadecimal rendering, as `stream << std::hex << value`
produces for a `std::size_t` (prints `0` for zero). -/
def hex_string (v : Nat) : String :=
  String.mk (Nat.toDigits 16 v)

/-- `std::bitset<w>(v).to_string()`: exactly `w` characters, most
significant bit first; the constructor keeps the least significant `w`
bits, and since only bit indices below `w` are printed no explicit
truncation is needed. -/
def bitset_to_string (w v : Nat) : String :=
  String.mk ((List.range w).map (fun i => if v.testBit (w - 1 - i) then '1' else '0'))

/-- Core of the `bin` primitive in `register_commands`: the four-way
width selection over the parsed `std::size_t`, with `none` standing for
the trailing `std::unreachable()`.  The bounds are the
`std::numeric_limits<std::uintN_t>::max()` constants of the source. -/
def bin_action (value : Nat) : Option (List String) :=
  if value ≤ 2 ^ 8 - 1 then some ["0b" ++ bitset_to_string 8 value]
  else if value ≤ 2 ^ 16 - 1 then some ["0b" ++ bitset_to_string 16 value]
  else if value ≤ 2 ^ 32 - 1 then some ["0b" ++ bitset_to_string 32 value]
  else if value ≤ 2 ^ 64 - 1 then some ["0b" ++ bitset_to_string 64 value]
  else none

/-- The registered `quit` command.  Its action calls
`std::exit(EXIT_SUCCESS)`; process termination is not representable in a
pure model, so the action is the never-invoked `[]` — no theorem in this
file invokes `quit`. -/
def quit_command : Command :=
  .mk "quit" 0 [] (fun _ => []) []

/-- The registered `echo` command: prints its joined arguments (output is
an I/O effect outside the model) and returns the empty deque. -/
def echo_command : Command :=
  .mk "echo" 1 [] (fun _ => []) []

/-- The registered `add` command: parses the first two arguments as
`float` and returns the formatted sum. -/
def add_command : Command :=
  .mk "add" 2 []
    (fun args => [format_float ((parse_float (arg_at args 0)).add (parse_float (arg_at args 1)))]) []

/-- The registered `sub` command: `lhs - rhs` where `lhs` is
`arguments.at(0)` and `rhs` is `arguments.at(1)`. -/
def sub_command : Command :=
  .mk "sub" 2 []
    (fun args => [format_float ((parse_float (arg_at args 0)).sub (parse_float (arg_at args 1)))]) []

/-- The registered `mul` command. -/
def mul_command : Command :=
  .mk "mul" 2 []
    (fun args => [format_float ((parse_float (arg_at args 0)).mul (parse_float (arg_at args 1)))]) []

/-- The registered `div` command.  Division by zero is not modelled (see
`Fraction.div`); no theorem divides by zero. -/
def div_command : Command :=
  .mk "div" 2 []
    (fun args => [format_float ((parse_float (arg_at args 0)).div (parse_float (arg_at args 1)))]) []

/-- The registered `hex` command. -/
def hex_command : Command :=
  .mk "hex" 1 []
    (fun args => ["0x" ++ hex_string (parse_size_t (arg_at args 0))]) []

/-- The registered `bin` command: the `std::unreachable()` branch is
modelled as returning the empty deque; `bin_unreachable_branch_dead`
below (claim C10) shows that branch is never taken for any parseable
`std::size_t`. -/
def bin_command : Command :=
  .mk "bin" 1 []
    (fun args => (bin_action (parse_size_t (arg_at args 0))).getD []) []

/-- The registered `iota` command: `std::views::iota(minimum, maximum + 1)`
rendered to decimal strings.  `maximum + 1` wraps modulo `2 ^ 64` as the
`std::size_t` increment does; an empty range is produced when the bound
does not exceed the start (the C++ range would be undefined there, and no
theorem exercises it). -/
def iota_command : Command :=
  .mk "iota" 2 []
    (fun args =>
      let minimum := parse_size_t (arg_at args 0)
      let maximum := parse_size_t (arg_at args 1)
      (List.range' minimum ((maximum + 1) % 2 ^ 64 - minimum)).map (fun i => toString i)) []

/-- The nine non-variadic registrations of `register_commands`, in
registration order. -/
def base_commands : List Command :=
  [quit_command, echo_command, add_command, sub_command, mul_command,
   div_command, hex_command, bin_command, iota_command]

/-- Name lookup over a command list (`commands_m.find(name)` on the
`std::unordered_map`, keyed by the unique command names). -/
def find_command_in (cmds : List Command) (n : String) : Option Command :=
  cmds.find? (fun c => c.name == n)

/-- The lookup the `apply` lambda performs against the captured
`commands` map.  For every target except `apply` itself this is exactly
`find_command_in base_commands`.  `apply`'s own entry is present with its
real name and declared argument count (`size_t_max`); its stored action
is a placeholder, because that inner action is invoked only on elements
of `arguments│drop(size_t_max)` — a deque would need more than
`2 ^ 64 - 1` elements, which `std::deque` cannot hold, so the placeholder
is unreachable in any run the C++ can perform. -/
def apply_target_map (n : String) : Option Command :=
  if n == "apply" then some (.mk "apply" size_t_max [] (fun _ => []) [])
  else find_command_in base_commands n

/-- The `apply` lambda of `register_commands`: resolves
`arguments.at(0)`; on a miss reports the unknown command (an I/O effect)
and returns the empty deque.  On a hit, `requestedCommandArguments` is
`arguments │ take(arity) │ drop(1)`; then for every argument in
`arguments │ drop(arity)`, that argument is `push_front`ed, the target is
invoked, the front of a non-empty result is collected, and the argument
is popped again. -/
def apply_action (find : String → Option Command) (args : List String) : List String :=
  match find (arg_at args 0) with
  | none => []
  | some requested =>
    let fixedArgs := (args.take requested.numberOfArguments).drop 1
    (args.drop requested.numberOfArguments).foldl
      (fun result argument =>
        match requested.invoke (argument :: fixedArgs) with
        | [] => result
        | r :: _ => result ++ [r])
      []

/-- The registered variadic `apply` command
(`numberOfArguments = std::numeric_limits<std::size_t>::max()`). -/
def apply_command : Command :=
  .mk "apply" size_t_max [] (apply_action apply_target_map) []

/-- The full registry built by `register_commands`, in registration
order.  (`std::unordered_map` iteration order is unspecified; every
theorem below is insensitive to the order.) -/
def registered_commands : List Command :=
  base_commands ++ [apply_command]

/-- `availableCommands_m.map().find(name)` over the full registry. -/
def commands_find (n : String) : Option Command :=
  find_command_in registered_commands n

/-- `std::views::keys(availableCommands)`: the registered names. -/
def commands_keys : List String :=
  registered_commands.map Command.name

/-- The filter predicate of `handle_non_existing_command`:
`(size - distance) / size * 100 > 70` in `std::size_t` arithmetic
(truncating division; the code's `distance` never exceeds `size`, so the
unsigned subtraction never wraps), with
`size = max(commandName.size(), value.size())`. -/
def similarity_filter (commandName value : String) : Bool :=
  let distance := calculate_edit_distance commandName value
  let size := max commandName.length value.length
  decide ((size - distance) / size * 100 > 70)

/-- The `similarCommands` view of `handle_non_existing_command`: the
registered names that pass `similarity_filter`, in iteration order. -/
def similar_commands (availableNames : List String) (commandName : String) : List String :=
  availableNames.filter (fun value => similarity_filter commandName value)

/-- Character-level splitting of `std::views::split(' ')`: splits on every
single separator occurrence and keeps empty segments (the empty input
yields one empty segment). -/
def split_chars (sep : Char) : List Char → List (List Char)
  | [] => [[]]
  | c :: cs =>
    match split_chars sep cs with
    | [] => [[]]
    | w :: ws => if c = sep then [] :: w :: ws else (c :: w) :: ws

/-- The word stream of `enqueue_command`:
`input │ std::views::split(' ')`. -/
def split_words (input : String) : List String :=
  (split_chars ' ' input.data).map (fun cs => String.mk cs)

/-- The test `value.front() == '│'` applied to a word.  `front()` on an
empty `std::string` is undefined behaviour in C++; the model answers
`false`, and no theorem feeds an empty word to it. -/
def word_starts_with_pipe (w : String) : Bool :=
  match w.data with
  | [] => false
  | c :: _ => c = '|'

/-- `std::views::chunk_by` with predicate
`(lhs, rhs) -> rhs.front() != '│'`: consecutive words are grouped, and a
new group starts exactly before every word whose first character is the
pipe. -/
def chunk_by_pipe : List String → List (List String)
  | [] => []
  | [w] => [[w]]
  | w :: v :: ws =>
    match chunk_by_pipe (v :: ws) with
    | [] => [[w]]
    | c :: cs => if word_starts_with_pipe v then [w] :: c :: cs else (w :: c) :: cs

/-- The lambda `fnParseCommand` of `Interpreter::enqueue_command`: drops
the leading words whose first character is `'│'`
(`std::views::drop_while`), takes the first remaining word as the command
name and the rest as its arguments, resolves the name in the registry
(reporting and failing on a miss), and returns the resolved command with
the arguments appended.  When the group contains only pipe-prefixed
words the C++ `view.front()` is undefined behaviour; the model fails, and
no theorem exercises that case. -/
def parse_command (find : String → Option Command) (group : List String) : Option Command :=
  match group.dropWhile word_starts_with_pipe with
  | [] => none
  | name :: args =>
    match find name with
    | none => none
    | some command => some (command.push_back_arguments args)

/-- The subcommand loop of `Interpreter::enqueue_command`: parses each
later group in order, aborting at the first failure. -/
def parse_subcommands (find : String → Option Command) : List (List String) → Option (List Command)
  | [] => some []
  | g :: gs =>
    match parse_command find g with
    | none => none
    | some c =>
      match parse_subcommands find gs with
      | none => none
      | some cs => some (c :: cs)

/-- Body of `Interpreter::enqueue_command` over the already-chunked word
groups: parse the master group, parse the remaining groups as
subcommands, and on full success push the master (with its subcommands
attached in order) onto the FIFO pipeline queue; on any failure leave the
queue untouched. -/
def enqueue_groups (find : String → Option Command) (groups : List (List String))
    (queue : List Command) : List Command :=
  match groups with
  | [] => queue
  | master :: rest =>
    match parse_command find master with
    | none => queue
    | some m =>
      match parse_subcommands find rest with
      | none => queue
      | some subs => queue ++ [m.append_subcommands subs]

/-- `Interpreter::enqueue_command(input)`: split the raw line on spaces,
chunk the word stream at pipe-prefixed words, and process the groups. -/
def enqueue_command (find : String → Option Command) (input : String)
    (queue : List Command) : List Command :=
  enqueue_groups find (chunk_by_pipe (split_words input)) queue

/-- Token kinds of the expression engine (`Token::Type` in
`math/Lexer.hpp`). -/
inductive TokenType : Type where
  | number | operator | lparen | rparen
deriving DecidableEq

/-- Operator fixity (`Token::Fixity`).  The lexer value-initialises every
token, so all produced tokens carry `left` (the enum's zero value). -/
inductive Fixity : Type where
  | left | right
deriving DecidableEq

/-- Expression token (`struct Token`).  `precedence` is the numeric value
of the `Token::Precedence` enum: `NONE = 0`, `_3 = 1`, `_2 = 2`,
`_1 = 3`. -/
structure Token : Type where
  type : TokenType
  precedence : Nat
  fixity : Fixity
  value : String
deriving DecidableEq

/-- `is_number` from `Eval.cpp`. -/
def is_number (t : Token) : Bool :=
  match t.type with
  | .number => true
  | _ => false

/-- `is_operator` from `Eval.cpp`. -/
def is_operator (t : Token) : Bool :=
  match t.type with
  | .operator => true
  | _ => false

/-- `is_left_parenthesis` from `Eval.cpp`. -/
def is_left_parenthesis (t : Token) : Bool :=
  match t.type with
  | .lparen => true
  | _ => false

/-- `is_right_parenthesis` from `Eval.cpp`. -/
def is_right_parenthesis (t : Token) : Bool :=
  match t.type with
  | .rparen => true
  | _ => false

/-- Classification of one whitespace-delimited word by `Lexer::tokenize`:
a word whose characters are all digits or dots becomes a `number`
(precedence `NONE = 0`); otherwise the first character selects the kind
and precedence tier; any other first character hits the
`UNRECOGNIZED SYMBOL` assertion, modelled as `none`.  Every token is
value-initialised, so `fixity` is `left`. -/
def classify_word (word : String) : Option Token :=
  if word.data.all (fun c => c.isDigit || c = '.') then
    some { type := .number, precedence := 0, fixity := .left, value := word }
  else
    match word.data with
    | '+' :: _ => some { type := .operator, precedence := 1, fixity := .left, value := word }
    | '-' :: _ => some { type := .operator, precedence := 1, fixity := .left, value := word }
    | '*' :: _ => some { type := .operator, precedence := 2, fixity := .left, value := word }
    | '/' :: _ => some { type := .operator, precedence := 2, fixity := .left, value := word }
    | '(' :: _ => some { type := .lparen, precedence := 3, fixity := .left, value := word }
    | ')' :: _ => some { type := .rparen, precedence := 3, fixity := .left, value := word }
    | _ => none

/-- The `for_each` loop of `Lexer::tokenize`, aborting at the first
unrecognized word. -/
def classify_words : List String → Option (List Token)
  | [] => some []
  | w :: ws =>
    match classify_word w with
    | none => none
    | some t =>
      match classify_words ws with
      | none => none
      | some ts => some (t :: ts)

/-- Whitespace tokenization of `std::istream_iterator<std::string>`:
maximal non-space runs (runs of separators are skipped, no empty words).
Only the space character is modelled as whitespace; no input in this
development contains tabs or newlines. -/
def split_expression_words (input : String) : List String :=
  ((split_chars ' ' input.data).filter (fun w => !w.isEmpty)).map (fun cs => String.mk cs)

/-- `Lexer::tokenize()` on the expression string the `Lexer` was
constructed with. -/
def tokenize (input : String) : Option (List Token) :=
  classify_words (split_expression_words input)

/-- The inner `while` loop of the `OPERATOR` case of `parse_expression`:
starting from the operator side-stack and the output built so far, pop
stack entries to the output while the front is not a left parenthesis and
the incoming token has strictly lower precedence, or equal precedence and
left fixity (precedences compare by their enum values, where a larger
value binds tighter).  Returns the new output and the remaining stack. -/
def pop_for_operator (token : Token) : List Token → List Token → (List Token × List Token)
  | [], expression => (expression, [])
  | op :: rest, expression =>
    if is_left_parenthesis op
        ∨ ¬(token.precedence < op.precedence
            ∨ (token.precedence = op.precedence ∧ token.fixity = Fixity.left)) then
      (expression, op :: rest)
    else pop_for_operator token rest (expression ++ [op])

/-- The `RPAREN` case of `parse_expression`: pop stack entries to the
output until a left parenthesis is at the front, then discard it.  If the
stack empties first, the `MISMATCHING PARENTHESIS` assertion fires —
modelled as `none`. -/
def pop_until_left_parenthesis : List Token → List Token → Option (List Token × List Token)
  | [], _ => none
  | op :: rest, expression =>
    if is_left_parenthesis op then some (expression, rest)
    else pop_until_left_parenthesis rest (expression ++ [op])

/-- The token loop of `parse_expression` (shunting-yard), carrying the
output `expression` and the front-pushed operator deque
`expressionOperators`; at the end of input the remaining stack entries
are appended to the output front-to-back. -/
def parse_expression_go : List Token → List Token → List Token → Option (List Token)
  | [], expression, operators => some (expression ++ operators)
  | token :: rest, expression, operators =>
    match token.type with
    | .number => parse_expression_go rest (expression ++ [token]) operators
    | .operator =>
      let p := pop_for_operator token operators expression
      parse_expression_go rest p.1 (token :: p.2)
    | .lparen => parse_expression_go rest expression (token :: operators)
    | .rparen =>
      match pop_until_left_parenthesis operators expression with
      | none => none
      | some p => parse_expression_go rest p.1 p.2

/-- `parse_expression(tokens)` from `Eval.cpp`: returns the postfix
(Reverse-Polish) token sequence, or `none` when the mismatched
parenthesis assertion fires. -/
def parse_expression (tokens : List Token) : Option (List Token) :=
  parse_expression_go tokens [] []

/-- First character of a token's text (`token.value.front()`); the C++
call is undefined on an empty string, where the model answers a space —
no tokenizer output has empty text. -/
def char_front (s : String) : Char :=
  s.data.headD ' '

/-- The operator switch of `evaluate_expression`.  The C++ names are
kept: `lhs` is the FIRST pop (the stack top, logically the right-hand
operand) and `rhs` is the SECOND pop; the switch computes
`rhs (op) lhs` and pushes it.  An unmatched character leaves `rhs`
unchanged (the switch has no default). -/
def apply_operator (c : Char) (rhs lhs : Fraction) : Fraction :=
  if c = '+' then rhs.add lhs
  else if c = '-' then rhs.sub lhs
  else if c = '*' then rhs.mul lhs
  else if c = '/' then rhs.div lhs
  else rhs

/-- The token loop of `evaluate_expression` over the numeric stack
(list head = stack top): numbers push their parsed value, operators pop
two values and push the combination, parentheses are no-ops.  Popping an
empty stack, or taking the final `top()` of an empty stack, is undefined
behaviour in C++ and is modelled as `none`; no theorem reaches those
cases. -/
def evaluate_go : List Token → List Fraction → Option Fraction
  | [], stack =>
    match stack with
    | v :: _ => some v
    | [] => none
  | token :: rest, stack =>
    match token.type with
    | .number => evaluate_go rest (parse_float token.value :: stack)
    | .operator =>
      match stack with
      | lhs :: rhs :: stackRest =>
        evaluate_go rest (apply_operator (char_front token.value) rhs lhs :: stackRest)
      | _ => none
    | .lparen => evaluate_go rest stack
    | .rparen => evaluate_go rest stack

/-- `evaluate_expression(tokens)` from `Eval.cpp`. -/
def evaluate_expression (tokens : List Token) : Option Fraction :=
  evaluate_go tokens []

/-- The tokenize → compile → evaluate chain (the shape every expression
consumer follows per spec section 2). -/
def compile_and_evaluate (input : String) : Option Fraction :=
  match tokenize input with
  | none => none
  | some tokens =>
    match parse_expression tokens with
    | none => none
    | some expression => evaluate_expression expression

/-- Parenthesis balance counter of a token sequence, started at `n` open
parentheses: every right parenthesis must find a positive counter and the
counter must return to zero at the end. -/
def paren_balanced_from (n : Nat) : List Token → Bool
  | [] => decide (n = 0)
  | t :: ts =>
    match t.type with
    | .lparen => paren_balanced_from (n + 1) ts
    | .rparen => decide (0 < n) && paren_balanced_from (n - 1) ts
    | .number => paren_balanced_from n ts
    | .operator => paren_balanced_from n ts

/-- A token sequence has balanced parentheses: counting left parentheses
up and right parentheses down never goes negative and ends at zero. -/
def paren_balanced (ts : List Token) : Bool :=
  paren_balanced_from 0 ts

/-- Weakening of balance used by the compiler-success invariant: every
right parenthesis finds a positive counter (the final count is
unconstrained). -/
def rparen_safe (n : Nat) : List Token → Bool
  | [] => true
  | t :: ts =>
    match t.type with
    | .lparen => rparen_safe (n + 1) ts
    | .rparen => decide (0 < n) && rparen_safe (n - 1) ts
    | .number => rparen_safe n ts
    | .operator => rparen_safe n ts

/-- Specification-side width choice for claim C10: the smallest width
among 8, 16, 32 and 64 bits that can represent `v` (64 for every
remaining `std::size_t` value). -/
def smallest_representable_width (v : Nat) : Nat :=
  if v < 2 ^ 8 then 8 else if v < 2 ^ 16 then 16 else if v < 2 ^ 32 then 32 else 64

/-- C1 counterexample: invoking the `apply` primitive with the argument
list `["sub", "10", "1", "2", "3"]` does NOT yield `["9", "8", "7"]` —
the loop `push_front`s each streamed word, so the word becomes the FIRST
argument of the target, before the fixed prefix; the invocations are
`sub(1, 10)`, `sub(2, 10)`, `sub(3, 10)`, yielding `["-9", "-8", "-7"]`. -/
theorem claim1_apply_counterexample :
    apply_action apply_target_map ["sub", "10", "1", "2", "3"] ≠ ["9", "8", "7"] := by
  decide

/-- C1 amended: for the `apply` primitive invoked with
`["sub", "10", "1", "2", "3"]` (target `sub` has declared arity 2, so
`"10"` is the fixed prefix), the result list is `["-9", "-8", "-7"]`: for
every remaining word `w` in input order the target is invoked with `[w]`
followed by the fixed prefix (i.e. `sub(1,10)`, `sub(2,10)`,
`sub(3,10)`), collecting the first output value of each invocation. -/
theorem claim1_apply_streams_word_first :
    apply_action apply_target_map ["sub", "10", "1", "2", "3"] = ["-9", "-8", "-7"] := by
  decide

/-- C2 (code bug): the spec requires `calculate_edit_distance` to be the
classic Levenshtein distance, but the source conflates the two tails
(`toTail = from.substr(1)`), so whenever the first characters agree the
rest of both strings is ignored: on `("ab", "a")` the code returns `0`
while the Levenshtein distance is `1`. -/
theorem claim2_edit_distance_code_bug :
    calculate_edit_distance "ab" "a" = 0 ∧ levenshtein "ab" "a" = 1 := by
  constructor
  · decide
  · simp [levenshtein, levenshtein_chars]

/-- C4: entering the unresolvable name `eco` queues zero pipelines
(whatever the current queue is, `enqueue_command` leaves it unchanged),
and the suggestion list computed by `handle_non_existing_command` over
the ten registered primitives is exactly `["echo"]` — `echo` is the only
registered name whose `(size - distance) / size * 100 > 70` filter (in
the code's `std::size_t` arithmetic, over the code's edit distance)
evaluates to true. -/
theorem claim4_unknown_command_suggests_echo :
    (∀ queue : List Command, enqueue_command commands_find "eco 1 2" queue = queue) ∧
      similar_commands commands_keys "eco" = ["echo"] := by
  constructor
  · intro queue
    rfl
  · decide

/-- C6: tokenizing, compiling (shunting-yard) and evaluating the
pre-spaced expression `3 + 4 * 2` yields `11`, and doing the same for
`( 3 + 4 ) * 2` yields `14` — multiplication binds tighter than addition
and parentheses override precedence. -/
theorem claim6_expression_values :
    compile_and_evaluate "3 + 4 * 2" = some (Fraction.ofInt 11) ∧
      compile_and_evaluate "( 3 + 4 ) * 2" = some (Fraction.ofInt 14) := by
  constructor
  · decide
  · decide

/-- C10: for every value `v` a `std::size_t` can hold, the `bin`
primitive's width selection chooses the smallest of 8, 16, 32 and 64 bits
that can represent `v`, returns the single string `0b` followed by the
binary rendering of `v` zero-padded to that width, and never reaches the
trailing `std::unreachable()` (the result is always `some`). -/
theorem claim10_bin_width_selection (v : Nat) (hv : v < 2 ^ 64) :
    bin_action v = some ["0b" ++ bitset_to_string (smallest_representable_width v) v] := by
  unfold bin_action smallest_representable_width
  split_ifs with h1 h2 h3 h4 <;> first
    | rfl
    | omega

/-- C10 witness: the value `70000` needs 32 bits. -/
theorem claim10_bin_width_selection_witness :
    bin_action 70000 = some ["0b" ++ bitset_to_string (smallest_representable_width 70000) 70000] :=
  claim10_bin_width_selection 70000 (by decide)

/-- C3 counterexample: gluing the pipe to the stage name is NOT handled
by stripping the leading pipe.  On the line `iota 1 3 |echo 5` the word
`|echo` is dropped entirely by the `drop_while`, the stage name resolves
to `5` (not `echo`), resolution fails, and nothing is queued — while the
same line with the pipe as a separate word (`iota 1 3 | echo 5`) queues
one pipeline. -/
theorem claim3_glued_pipe_counterexample :
    enqueue_command commands_find "iota 1 3 |echo 5" [] = [] ∧
      (enqueue_command commands_find "iota 1 3 | echo 5" []).length = 1 := by
  constructor
  · rfl
  · rfl

/-- C3 amended: the parser drops every LEADING WORD of a group that
begins with a pipe character, in its entirety — a glued `|cmd` word
contributes neither the stage name `cmd` nor an argument; the stage name
is resolved from the group's next word.  This is not the same result as
writing the pipe as a separate word. -/
theorem claim3_glued_pipe_word_dropped (find : String → Option Command) (w : String)
    (rest : List String) (h : word_starts_with_pipe w = true) :
    parse_command find (w :: rest) = parse_command find rest := by
  unfold parse_command
  simp [List.dropWhile_cons, h]

/-- C3 amended witness: the glued word `|echo` is dropped whole, so the
group `|echo 5` parses exactly as the group `5`. -/
theorem claim3_glued_pipe_word_dropped_witness :
    word_starts_with_pipe "|echo" = true ∧
      parse_command commands_find ["|echo", "5"] = parse_command commands_find ["5"] :=
  ⟨rfl, claim3_glued_pipe_word_dropped commands_find "|echo" ["5"] rfl⟩

/-- Helper for C5: the subcommand parse loop fails as a whole whenever
any group in the list fails to parse. -/
theorem parse_subcommands_none_of_mem (find : String → Option Command)
    (gs : List (List String)) (g : List String) (hmem : g ∈ gs)
    (hfail : parse_command find g = none) :
    parse_subcommands find gs = none := by
  induction gs with
  | nil => cases hmem
  | cons x xs ih =>
    cases hmem with
    | head => simp [parse_subcommands, hfail]
    | tail _ hmem' =>
      unfold parse_subcommands
      cases hx : parse_command find x with
      | none => rfl
      | some c => simp [ih hmem']

/-- C5: for every input line whose master group resolves but which
contains a later group that does not resolve in the registry,
`enqueue_command` leaves the pipeline queue unchanged — no master
command is pushed, so nothing from that line is ever executed (the parse
phase itself invokes no command action). -/
theorem claim5_unresolvable_subcommand_aborts (input : String) (queue : List Command)
    (master : List String) (rest : List (List String))
    (hgroups : chunk_by_pipe (split_words input) = master :: rest)
    (hmaster : (parse_command commands_find master).isSome = true)
    (failing : List String) (hmem : failing ∈ rest)
    (hfail : parse_command commands_find failing = none) :
    enqueue_command commands_find input queue = queue := by
  unfold enqueue_command
  rw [hgroups]
  cases hm : parse_command commands_find master with
  | none => simp [enqueue_groups, hm]
  | some m =>
    simp [enqueue_groups, hm,
      parse_subcommands_none_of_mem commands_find rest failing hmem hfail]

/-- C5 witness: on `iota 1 3 | foo` the master `iota` resolves, the
subcommand `foo` does not, and the queue stays empty. -/
theorem claim5_unresolvable_subcommand_aborts_witness :
    enqueue_command commands_find "iota 1 3 | foo" [] = [] :=
  claim5_unresolvable_subcommand_aborts "iota 1 3 | foo" [] ["iota", "1", "3"]
    [["|", "foo"]] rfl rfl ["|", "foo"] (by decide) rfl

/-- The minus operator token as `Lexer::tokenize` produces it. -/
def minus_token : Token :=
  { type := .operator, precedence := 1, fixity := .left, value := "-" }

/-- The division operator token as `Lexer::tokenize` produces it. -/
def divide_token : Token :=
  { type := .operator, precedence := 2, fixity := .left, value := "/" }

/-- C7: for every operator of a postfix sequence the evaluator pops the
right-hand (logically later) operand FIRST and the left-hand operand
second, and applies the operator in that orientation: for all number
tokens `a` and `b`, evaluating the postfix sequence `a b -` yields
`a - b`, and `a b /` yields `a / b`. -/
theorem claim7_evaluator_pop_order (a b : Token)
    (ha : a.type = TokenType.number) (hb : b.type = TokenType.number) :
    evaluate_expression [a, b, minus_token] =
        some ((parse_float a.value).sub (parse_float b.value)) ∧
      evaluate_expression [a, b, divide_token] =
        some ((parse_float a.value).div (parse_float b.value)) := by
  obtain ⟨ta, pa, fa, va⟩ := a
  obtain ⟨tb, pb, fb, vb⟩ := b
  simp only at ha hb
  subst ha
  subst hb
  constructor
  · rfl
  · rfl

/-- C7 witness: the postfix sequence `7 2 -` evaluates to `7 - 2` and
`7 2 /` evaluates to `7 / 2`. -/
theorem claim7_evaluator_pop_order_witness :
    evaluate_expression
        [{ type := .number, precedence := 0, fixity := .left, value := "7" },
         { type := .number, precedence := 0, fixity := .left, value := "2" }, minus_token] =
        some ((parse_float "7").sub (parse_float "2")) ∧
      evaluate_expression
        [{ type := .number, precedence := 0, fixity := .left, value := "7" },
         { type := .number, precedence := 0, fixity := .left, value := "2" }, divide_token] =
        some ((parse_float "7").div (parse_float "2")) :=
  claim7_evaluator_pop_order
    { type := .number, precedence := 0, fixity := .left, value := "7" }
    { type := .number, precedence := 0, fixity := .left, value := "2" } rfl rfl

/-- Helper for C9: on equal strings the code's distance is zero (the
equal-heads branch walks both copies down together). -/
theorem edit_distance_chars_self (cs : List Char) : edit_distance_chars cs cs = 0 := by
  induction cs with
  | nil => rfl
  | cons c cs ih => simp [edit_distance_chars, ih]

/-- Helper for C9: the code's distance is symmetric — both empty cases
return the other length, and on two non-empty strings the result depends
only on whether the first characters agree (`0` if they do, `1`
otherwise, because the conflated-tail recursion bottoms out
immediately). -/
theorem edit_distance_chars_comm (a b : List Char) :
    edit_distance_chars a b = edit_distance_chars b a := by
  cases a with
  | nil =>
    cases b with
    | nil => rfl
    | cons t ts => simp [edit_distance_chars]
  | cons f fs =>
    cases b with
    | nil => simp [edit_distance_chars]
    | cons t ts =>
      by_cases h : f = t
      · subst h
        simp [edit_distance_chars, edit_distance_chars_self]
      · simp [edit_distance_chars, h, Ne.symm h, edit_distance_chars_self]

/-- C9: for every string `x`, `calculate_edit_distance x x = 0`, and for
every pair of strings, `calculate_edit_distance` is symmetric.  (Both
hold for the code's function even though it is not the Levenshtein
distance — see C2.) -/
theorem claim9_edit_distance_refl_symm :
    (∀ x : String, calculate_edit_distance x x = 0) ∧
      (∀ x y : String, calculate_edit_distance x y = calculate_edit_distance y x) :=
  ⟨fun x => edit_distance_chars_self x.data,
   fun x y => edit_distance_chars_comm x.data y.data⟩

/-- Helper for C8: the operator case of the shunting-yard loop never pops
a left parenthesis off the side-stack (it breaks when one is at the
front), so the number of left parentheses on the stack is preserved. -/
theorem pop_for_operator_countP (token : Token) (ops : List Token) :
    ∀ expression : List Token,
      ((pop_for_operator token ops expression).2).countP is_left_parenthesis =
        ops.countP is_left_parenthesis := by
  induction ops with
  | nil => intro e; rfl
  | cons op rest ih =>
    intro e
    unfold pop_for_operator
    split_ifs with hcond
    · rfl
    · have hop : is_left_parenthesis op = false := by
        cases hb : is_left_parenthesis op
        · rfl
        · exact absurd (Or.inl hb) hcond
      rw [ih (e ++ [op])]
      simp [List.countP_cons, hop]

/-- Helper for C8: when the side-stack holds at least one left
parenthesis, the right-parenthesis pop loop succeeds and consumes
exactly the topmost left parenthesis. -/
theorem pop_until_left_parenthesis_some (ops : List Token) :
    ∀ expression : List Token, 0 < ops.countP is_left_parenthesis →
      ∃ e2 s2, pop_until_left_parenthesis ops expression = some (e2, s2) ∧
        s2.countP is_left_parenthesis = ops.countP is_left_parenthesis - 1 := by
  induction ops with
  | nil =>
    intro e h
    simp at h
  | cons op rest ih =>
    intro e h
    by_cases hop : is_left_parenthesis op = true
    · refine ⟨e, rest, ?_, ?_⟩
      · simp [pop_until_left_parenthesis, hop]
      · simp [List.countP_cons, hop]
    · have hopf : is_left_parenthesis op = false := by
        cases hb : is_left_parenthesis op
        · rfl
        · exact absurd hb hop
      have h' : 0 < rest.countP is_left_parenthesis := by
        simpa [List.countP_cons, hopf] using h
      obtain ⟨e2, s2, heq, hcnt⟩ := ih (e ++ [op]) h'
      refine ⟨e2, s2, ?_, ?_⟩
      · simp [pop_until_left_parenthesis, hopf, heq]
      · simp [List.countP_cons, hopf, hcnt]

/-- Helper for C8, the compiler-success invariant: if every right
parenthesis still to come finds a positive count of left parentheses —
counting from the number of left parentheses currently on the side-stack
— then the shunting-yard loop never hits the mismatched-parenthesis
assertion. -/
theorem parse_expression_go_isSome (ts : List Token) :
    ∀ expression operators : List Token,
      rparen_safe (operators.countP is_left_parenthesis) ts = true →
      (parse_expression_go ts expression operators).isSome = true := by
  induction ts with
  | nil => intro e o h; rfl
  | cons token rest ih =>
    intro e o h
    unfold parse_expression_go
    cases htype : token.type with
    | number =>
      have h' : rparen_safe (o.countP is_left_parenthesis) rest = true := by
        simpa only [rparen_safe, htype] using h
      exact ih (e ++ [token]) o h'
    | operator =>
      have h' : rparen_safe (o.countP is_left_parenthesis) rest = true := by
        simpa only [rparen_safe, htype] using h
      have htok : is_left_parenthesis token = false := by
        simp [is_left_parenthesis, htype]
      have hcnt : (token :: (pop_for_operator token o e).2).countP is_left_parenthesis
          = o.countP is_left_parenthesis := by
        simp [List.countP_cons, htok, pop_for_operator_countP]
      exact ih (pop_for_operator token o e).1 (token :: (pop_for_operator token o e).2)
        (by rw [hcnt]; exact h')
    | lparen =>
      have h' : rparen_safe (o.countP is_left_parenthesis + 1) rest = true := by
        simpa only [rparen_safe, htype] using h
      have htok : is_left_parenthesis token = true := by
        simp [is_left_parenthesis, htype]
      exact ih e (token :: o) (by simpa [List.countP_cons, htok] using h')
    | rparen =>
      simp only [rparen_safe, htype, Bool.and_eq_true, decide_eq_true_eq] at h
      obtain ⟨e2, s2, heq, hcnt⟩ := pop_until_left_parenthesis_some o e h.1
      rw [heq]
      exact ih e2 s2 (by rw [hcnt]; exact h.2)

/-- Helper for C8: full balance (never negative, ending at zero) implies
the weaker invariant that every right parenthesis finds a positive
counter. -/
theorem rparen_safe_of_paren_balanced_from (ts : List Token) :
    ∀ n : Nat, paren_balanced_from n ts = true → rparen_safe n ts = true := by
  induction ts with
  | nil => intro n h; rfl
  | cons t rest ih =>
    intro n h
    cases htype : t.type with
    | number =>
      simp only [paren_balanced_from, htype] at h
      simp only [rparen_safe, htype]
      exact ih n h
    | operator =>
      simp only [paren_balanced_from, htype] at h
      simp only [rparen_safe, htype]
      exact ih n h
    | lparen =>
      simp only [paren_balanced_from, htype] at h
      simp only [rparen_safe, htype]
      exact ih (n + 1) h
    | rparen =>
      simp only [paren_balanced_from, htype, Bool.and_eq_true] at h
      simp only [rparen_safe, htype, Bool.and_eq_true]
      exact ⟨h.1, ih (n - 1) h.2⟩

/-- C8: when `parse_expression` meets a right parenthesis it pops
operators to the output until a left parenthesis is found and discards
that left parenthesis; the mismatched-parenthesis assertion (`none` in
the model) fires only when the side-stack empties first, and for every
token sequence with balanced parentheses that failure branch is
unreachable — compilation always produces a postfix sequence. -/
theorem claim8_balanced_parse_succeeds (tokens : List Token)
    (h : paren_balanced tokens = true) :
    (parse_expression tokens).isSome = true :=
  parse_expression_go_isSome tokens [] []
    (by simpa using rparen_safe_of_paren_balanced_from tokens 0 h)

/-- C8 witness: the balanced sequence `( 3 )` compiles successfully. -/
theorem claim8_balanced_parse_succeeds_witness :
    (parse_expression
        [{ type := .lparen, precedence := 3, fixity := .left, value := "(" },
         { type := .number, precedence := 0, fixity := .left, value := "3" },
         { type := .rparen, precedence := 3, fixity := .left, value := ")" }]).isSome = true :=
  claim8_balanced_parse_succeeds
    [{ type := .lparen, precedence := 3, fixity := .left, value := "(" },
     { type := .number, precedence := 0, fixity := .left, value := "3" },
     { type := .rparen, precedence := 3, fixity := .left, value := ")" }] (by decide)

end Ballin
